import Mathlib

/-!
Shallow embedding of the numeric core of this repository: the categorical
distributional projection of `DistributionalDQNLoss.forward`
(src/torchrl/objectives/dqn.py) and the TD/GAE advantage estimators
(src/torchrl/objectives/value/advantages.py).

Machine floats are modelled by exact rationals; the non-finite float values
relevant to the finiteness gate are modelled by an explicit extended type.
The square-root routine inside `Tensor.std` (irrational in general) is
threaded through as an explicit function argument, so every definition stays
computable and every statement holds for an arbitrary square-root routine.
-/

namespace RLSpec

/-! ### Categorical projection (dqn.py, `DistributionalDQNLoss.forward`, lines 299-396)

One projection call works on a flattened batch of `N` rows and a fixed support
of `Z` atoms.  `reward`, `done` and `discount` are the per-row scalars read at
lines 306-311 (`reward` is `("next", "reward")`, broadcast over the atom axis),
`support` is the value-network support buffer, and `pns_a` is the
double-estimator next-state distribution of line 350.  Functions are total over
`ℕ`; only indices `n < N`, `j < Z` are ever consumed. -/
structure ProjIn where
  N : ℕ
  Z : ℕ
  Vmin : ℚ
  Vmax : ℚ
  reward : ℕ → ℚ
  done : ℕ → Bool
  discount : ℕ → ℚ
  support : ℕ → ℚ
  pns_a : ℕ → ℕ → ℚ

/-- dqn.py line 304: `delta_z = (Vmax - Vmin) / (atoms - 1)`. -/
def deltaZ (P : ProjIn) : ℚ := (P.Vmax - P.Vmin) / ((P.Z : ℚ) - 1)

/-- dqn.py line 361: `Tz = reward + (1 - done.to(reward.dtype)) * discount * support`. -/
def TzVal (P : ProjIn) (n j : ℕ) : ℚ :=
  P.reward n + (if P.done n then 0 else 1) * P.discount n * P.support j

/-- dqn.py line 369: `Tz = Tz.clamp_(min=Vmin, max=Vmax)`, i.e.
`min(max(x, Vmin), Vmax)` per element. -/
def TzClamped (P : ProjIn) (n j : ℕ) : ℚ :=
  min (max (TzVal P n j) P.Vmin) P.Vmax

/-- dqn.py line 373: `b = (Tz - Vmin) / delta_z`. -/
def bVal (P : ProjIn) (n j : ℕ) : ℚ := (TzClamped P n j - P.Vmin) / deltaZ P

/-- dqn.py line 374: `low = b.floor().to(torch.int64)`. -/
def lowFloor (P : ProjIn) (n j : ℕ) : ℤ := ⌊bVal P n j⌋

/-- dqn.py line 374: `up = b.ceil().to(torch.int64)`. -/
def upCeil (P : ProjIn) (n j : ℕ) : ℤ := ⌈bVal P n j⌉

/-- dqn.py line 376: `low[(up > 0) & (low == up)] -= 1` (mask over the
original `low`, `up`). -/
def lowAdj (P : ProjIn) (n j : ℕ) : ℤ :=
  if 0 < upCeil P n j ∧ lowFloor P n j = upCeil P n j then lowFloor P n j - 1
  else lowFloor P n j

/-- dqn.py line 377: `up[(low < (atoms - 1)) & (low == up)] += 1`.  The mask
reads `low` after the in-place update of line 376, so it is evaluated on
`lowAdj`. -/
def upAdj (P : ProjIn) (n j : ℕ) : ℤ :=
  if lowAdj P n j < (P.Z : ℤ) - 1 ∧ lowAdj P n j = upCeil P n j then upCeil P n j + 1
  else upCeil P n j

/-- dqn.py lines 381-389: `offset[n] = n * atoms`, `index = (low + offset)`.
The flattened scatter index of the lower-atom write for cell `(n, j)`. -/
def flatLow (P : ProjIn) (n j : ℕ) : ℤ := lowAdj P n j + (n : ℤ) * P.Z

/-- dqn.py line 393: `index = (up + offset)`; flattened index of the
upper-atom write for cell `(n, j)`. -/
def flatUp (P : ProjIn) (n j : ℕ) : ℤ := upAdj P n j + (n : ℤ) * P.Z

/-- dqn.py line 390: `tensor = (pns_a * (up.float() - b))`, the mass added at
`flatLow`. -/
def massLowTerm (P : ProjIn) (n j : ℕ) : ℚ :=
  P.pns_a n j * ((upAdj P n j : ℚ) - bVal P n j)

/-- dqn.py line 394: `tensor = (pns_a * (b - low.float()))`, the mass added at
`flatUp`. -/
def massUpTerm (P : ProjIn) (n j : ℕ) : ℚ :=
  P.pns_a n j * (bVal P n j - (lowAdj P n j : ℚ))

/-- dqn.py lines 380-396: the flattened accumulator `m.view(-1)` after both
`index_add_` calls.  Entry `i` receives the sum of all `(n, j)` contributions
whose flattened scatter index equals `i` (additive accumulation). -/
def mflat (P : ProjIn) (i : ℤ) : ℚ :=
  ∑ n ∈ Finset.range P.N, ∑ j ∈ Finset.range P.Z,
    ((if flatLow P n j = i then massLowTerm P n j else 0) +
     (if flatUp P n j = i then massUpTerm P n j else 0))

lemma deltaZ_pos (P : ProjIn) (hZ : 2 ≤ P.Z) (hV : P.Vmin < P.Vmax) :
    0 < deltaZ P := by
  have h2 : (2 : ℚ) ≤ (P.Z : ℚ) := by exact_mod_cast hZ
  exact div_pos (by linarith) (by linarith)

lemma TzClamped_ge (P : ProjIn) (n j : ℕ) (hV : P.Vmin ≤ P.Vmax) :
    P.Vmin ≤ TzClamped P n j :=
  le_min (le_max_right _ _) hV

lemma TzClamped_le (P : ProjIn) (n j : ℕ) : TzClamped P n j ≤ P.Vmax :=
  min_le_right _ _

lemma bVal_nonneg (P : ProjIn) (hZ : 2 ≤ P.Z) (hV : P.Vmin < P.Vmax)
    (n j : ℕ) : 0 ≤ bVal P n j :=
  div_nonneg (by linarith [TzClamped_ge P n j (le_of_lt hV)])
    (le_of_lt (deltaZ_pos P hZ hV))

lemma bVal_le (P : ProjIn) (hZ : 2 ≤ P.Z) (hV : P.Vmin < P.Vmax)
    (n j : ℕ) : bVal P n j ≤ (P.Z : ℚ) - 1 := by
  have h2 : (2 : ℚ) ≤ (P.Z : ℚ) := by exact_mod_cast hZ
  have hne : ((P.Z : ℚ) - 1) ≠ 0 := by linarith
  rw [bVal, div_le_iff₀ (deltaZ_pos P hZ hV), deltaZ]
  have hcancel : ((P.Z : ℚ) - 1) * ((P.Vmax - P.Vmin) / ((P.Z : ℚ) - 1))
      = P.Vmax - P.Vmin := by
    field_simp
  rw [hcancel]
  linarith [TzClamped_le P n j]

lemma lowFloor_nonneg (P : ProjIn) (hZ : 2 ≤ P.Z) (hV : P.Vmin < P.Vmax)
    (n j : ℕ) : 0 ≤ lowFloor P n j := by
  rw [lowFloor, Int.le_floor]
  exact_mod_cast bVal_nonneg P hZ hV n j

lemma upCeil_le (P : ProjIn) (hZ : 2 ≤ P.Z) (hV : P.Vmin < P.Vmax)
    (n j : ℕ) : upCeil P n j ≤ (P.Z : ℤ) - 1 := by
  rw [upCeil, Int.ceil_le]
  push_cast
  exact bVal_le P hZ hV n j

/-- After the degenerate-bin fix, the two write targets of each cell are an
adjacent in-range pair: `0 ≤ lowAdj`, `upAdj = lowAdj + 1`, `upAdj ≤ Z - 1`. -/
lemma adjBounds (P : ProjIn) (hZ : 2 ≤ P.Z) (hV : P.Vmin < P.Vmax) (n j : ℕ) :
    0 ≤ lowAdj P n j ∧ upAdj P n j = lowAdj P n j + 1 ∧
      upAdj P n j ≤ (P.Z : ℤ) - 1 := by
  have h0 := lowFloor_nonneg P hZ hV n j
  have h1 := upCeil_le P hZ hV n j
  have h2 : lowFloor P n j ≤ upCeil P n j := Int.floor_le_ceil _
  have h3 : upCeil P n j ≤ lowFloor P n j + 1 := Int.ceil_le_floor_add_one _
  have hZ2 : (1 : ℤ) ≤ (P.Z : ℤ) - 1 := by
    have : (2 : ℤ) ≤ (P.Z : ℤ) := by exact_mod_cast hZ
    omega
  unfold upAdj lowAdj
  by_cases he : lowFloor P n j = upCeil P n j
  · by_cases hp : 0 < upCeil P n j
    · rw [if_pos ⟨hp, he⟩, if_neg (by omega)]
      omega
    · rw [if_neg (by omega), if_pos (by omega)]
      omega
  · rw [if_neg (by omega), if_neg (by omega)]
    omega

/-- Each cell redistributes exactly its own probability mass: the two scattered
terms of dqn.py lines 390 and 394 sum to `pns_a[n, j]`. -/
lemma cellMass (P : ProjIn) (hZ : 2 ≤ P.Z) (hV : P.Vmin < P.Vmax) (n j : ℕ) :
    massLowTerm P n j + massUpTerm P n j = P.pns_a n j := by
  have h := (adjBounds P hZ hV n j).2.1
  rw [massLowTerm, massUpTerm, h]
  push_cast
  ring

/-- Summing an equality indicator over one row segment of the flattened
accumulator. -/
lemma sum_indicator_seg (A M : ℤ) (c : ℚ) (Z : ℕ) :
    (∑ k ∈ Finset.range Z, if A = M + (k : ℤ) then c else 0)
      = if M ≤ A ∧ A < M + Z then c else 0 := by
  by_cases h : M ≤ A ∧ A < M + Z
  · obtain ⟨ha, hb⟩ := h
    rw [if_pos ⟨ha, hb⟩, Finset.sum_eq_single ((A - M).toNat)]
    · rw [if_pos (by omega)]
    · intro b hb2 hne
      rw [if_neg]
      simp only [Finset.mem_range] at hb2
      omega
    · intro habs
      exact absurd (Finset.mem_range.mpr (by omega)) habs
  · rw [if_neg h]
    apply Finset.sum_eq_zero
    intro k hk
    simp only [Finset.mem_range] at hk
    rw [if_neg]
    omega

/-- A flattened index that carries row offset `n' * Z` plus an in-range atom
index lands in row segment `n` exactly when `n' = n`. -/
lemma seg_iff_row (n np Z : ℕ) (v : ℤ) (h0 : 0 ≤ v) (hvZ : v < (Z : ℤ)) :
    ((n : ℤ) * Z ≤ v + (np : ℤ) * Z ∧ v + (np : ℤ) * Z < (n : ℤ) * Z + Z)
      ↔ np = n := by
  constructor
  · rintro ⟨h1, h2⟩
    rcases lt_trichotomy np n with hlt | he | hgt
    · exfalso
      have hc : ((np : ℤ) + 1) ≤ (n : ℤ) := by exact_mod_cast hlt
      have hm := mul_le_mul_of_nonneg_right hc (show (0 : ℤ) ≤ (Z : ℤ) by positivity)
      have he2 : ((np : ℤ) + 1) * Z = (np : ℤ) * Z + Z := by ring
      linarith
    · exact he
    · exfalso
      have hc : ((n : ℤ) + 1) ≤ (np : ℤ) := by exact_mod_cast hgt
      have hm := mul_le_mul_of_nonneg_right hc (show (0 : ℤ) ≤ (Z : ℤ) by positivity)
      have he2 : ((n : ℤ) + 1) * Z = (n : ℤ) * Z + Z := by ring
      linarith
  · rintro rfl
    constructor <;> linarith

/-- Row `n` of the projected mass keeps exactly the probability mass of row `n`
of `pns_a`: summing the flattened accumulator over segment
`[n*Z, n*Z + Z - 1]` yields `∑ j, pns_a n j`. -/
lemma mflat_rowsum (P : ProjIn) (hZ : 2 ≤ P.Z) (hV : P.Vmin < P.Vmax)
    (n : ℕ) (hn : n < P.N) :
    (∑ k ∈ Finset.range P.Z, mflat P ((n : ℤ) * P.Z + (k : ℤ)))
      = ∑ j ∈ Finset.range P.Z, P.pns_a n j := by
  unfold mflat
  rw [Finset.sum_comm]
  have hstep : ∀ np ∈ Finset.range P.N,
      (∑ k ∈ Finset.range P.Z, ∑ j ∈ Finset.range P.Z,
        ((if flatLow P np j = (n : ℤ) * P.Z + (k : ℤ) then massLowTerm P np j else 0) +
         (if flatUp P np j = (n : ℤ) * P.Z + (k : ℤ) then massUpTerm P np j else 0)))
      = if np = n then ∑ j ∈ Finset.range P.Z, P.pns_a n j else 0 := by
    intro np _
    rw [Finset.sum_comm]
    have hcell : ∀ j ∈ Finset.range P.Z,
        (∑ k ∈ Finset.range P.Z,
          ((if flatLow P np j = (n : ℤ) * P.Z + (k : ℤ) then massLowTerm P np j else 0) +
           (if flatUp P np j = (n : ℤ) * P.Z + (k : ℤ) then massUpTerm P np j else 0)))
        = if np = n then P.pns_a np j else 0 := by
      intro j _
      obtain ⟨hl0, hul, hub⟩ := adjBounds P hZ hV np j
      rw [Finset.sum_add_distrib, sum_indicator_seg, sum_indicator_seg]
      have hlow : ((n : ℤ) * P.Z ≤ flatLow P np j ∧
          flatLow P np j < (n : ℤ) * P.Z + P.Z) ↔ np = n := by
        rw [flatLow]
        exact seg_iff_row n np P.Z _ hl0 (by omega)
      have hup : ((n : ℤ) * P.Z ≤ flatUp P np j ∧
          flatUp P np j < (n : ℤ) * P.Z + P.Z) ↔ np = n := by
        rw [flatUp]
        exact seg_iff_row n np P.Z _ (by omega) (by omega)
      by_cases hnp : np = n
      · rw [if_pos (hlow.mpr hnp), if_pos (hup.mpr hnp), if_pos hnp]
        exact cellMass P hZ hV np j
      · rw [if_neg (fun hc => hnp (hlow.mp hc)), if_neg (fun hc => hnp (hup.mp hc)),
          if_neg hnp]
        ring
    rw [Finset.sum_congr rfl hcell]
    by_cases hnp : np = n
    · subst hnp
      simp
    · simp only [if_neg hnp, Finset.sum_const_zero]
  rw [Finset.sum_congr rfl hstep, Finset.sum_ite_eq' (Finset.range P.N) n
    (fun _ => ∑ j ∈ Finset.range P.Z, P.pns_a n j), if_pos (Finset.mem_range.mpr hn)]

/-- Claim C1: for every valid categorical projection input (support with at
least two atoms and `Vmin < Vmax`), every row `n` of the projected mass `m`
built by the two `index_add_` calls of `DistributionalDQNLoss.forward`
(dqn.py lines 380-396) carries exactly the probability mass of row `n` of
`pns_a`: summing the flattened accumulator over row segment
`[n*Z, n*Z + Z - 1]` gives `∑ j, pns_a n j`.  Mass is redistributed across
atoms, never created or destroyed (exact over `ℚ`, hence within floating
tolerance). -/
theorem c1_mass_conservation (P : ProjIn) (hZ : 2 ≤ P.Z) (hV : P.Vmin < P.Vmax)
    (n : ℕ) (hn : n < P.N) :
    (∑ k ∈ Finset.range P.Z, mflat P ((n : ℤ) * P.Z + (k : ℤ)))
      = ∑ j ∈ Finset.range P.Z, P.pns_a n j :=
  mflat_rowsum P hZ hV n hn

/-- Concrete projection input: one row, two atoms, `Tz = 1/2` lands strictly
between the atoms. -/
def PW1 : ProjIn where
  N := 1
  Z := 2
  Vmin := 0
  Vmax := 1
  reward := fun _ => 1/2
  done := fun _ => false
  discount := fun _ => 1
  support := fun j => (j : ℚ)
  pns_a := fun _ _ => 1/2

theorem c1_mass_conservation_witness :
    (2 ≤ PW1.Z ∧ PW1.Vmin < PW1.Vmax ∧ 0 < PW1.N) ∧
    (∑ k ∈ Finset.range PW1.Z, mflat PW1 (((0 : ℕ) : ℤ) * PW1.Z + (k : ℤ)))
      = ∑ j ∈ Finset.range PW1.Z, PW1.pns_a 0 j :=
  ⟨⟨by decide, by decide, by decide⟩,
    c1_mass_conservation PW1 (by decide) (by decide) 0 (by decide)⟩

/-- Claim C2: the degenerate-bin fix of dqn.py lines 376-377, read in program
order (the second mask is evaluated on the already-updated `low`):
(i) every cell with `low == up` and `up > 0` gets `low` decremented by 1;
(ii) every cell whose (updated) `low` equals `up` with `low < Z - 1` gets `up`
incremented by 1 — each adjustment fires independently of the other; and
(iii) an input row whose `Tz` lands exactly on atoms (`b` integral) with
nonzero total probability does not produce an all-zero mass row. -/
theorem c2_degenerate_bin_fix (P : ProjIn) (hZ : 2 ≤ P.Z) (hV : P.Vmin < P.Vmax)
    (n : ℕ) (hn : n < P.N) :
    (∀ j, lowFloor P n j = upCeil P n j → 0 < upCeil P n j →
        lowAdj P n j = lowFloor P n j - 1)
    ∧ (∀ j, lowAdj P n j = upCeil P n j → lowAdj P n j < (P.Z : ℤ) - 1 →
        upAdj P n j = upCeil P n j + 1)
    ∧ ((∀ j < P.Z, ∃ k : ℤ, bVal P n j = (k : ℚ)) →
        (∑ j ∈ Finset.range P.Z, P.pns_a n j) ≠ 0 →
        ¬(∀ k < P.Z, mflat P ((n : ℤ) * P.Z + (k : ℤ)) = 0)) := by
  refine ⟨?_, ?_, ?_⟩
  · intro j h1 h2
    rw [lowAdj, if_pos ⟨h2, h1⟩]
  · intro j h1 h2
    rw [upAdj, if_pos ⟨h2, h1⟩]
  · intro hb hsum hall
    apply hsum
    rw [← mflat_rowsum P hZ hV n hn]
    apply Finset.sum_eq_zero
    intro k hk
    exact hall k (Finset.mem_range.mp hk)

/-- Concrete projection input whose `Tz` lands exactly on atom 0 in every
cell (`b = 0` is integral): one row, two atoms, `reward = 0`, `discount = 0`. -/
def PW2 : ProjIn where
  N := 1
  Z := 2
  Vmin := 0
  Vmax := 1
  reward := fun _ => 0
  done := fun _ => false
  discount := fun _ => 0
  support := fun j => (j : ℚ)
  pns_a := fun _ _ => 1/2

theorem c2_degenerate_bin_fix_witness :
    (2 ≤ PW2.Z ∧ PW2.Vmin < PW2.Vmax ∧ 0 < PW2.N ∧
      (∀ j < PW2.Z, ∃ k : ℤ, bVal PW2 0 j = (k : ℚ)) ∧
      (∑ j ∈ Finset.range PW2.Z, PW2.pns_a 0 j) ≠ 0) ∧
    ¬(∀ k < PW2.Z, mflat PW2 (((0 : ℕ) : ℤ) * PW2.Z + (k : ℤ)) = 0) := by
  have hb : ∀ j < PW2.Z, ∃ k : ℤ, bVal PW2 0 j = (k : ℚ) := by
    intro j _
    refine ⟨0, ?_⟩
    simp [PW2, bVal, TzClamped, TzVal, deltaZ]
  have hsum : (∑ j ∈ Finset.range PW2.Z, PW2.pns_a 0 j) ≠ 0 := by
    norm_num [PW2, Finset.sum_range_succ]
  exact ⟨⟨by decide, by decide, by decide, hb, hsum⟩,
    (c2_degenerate_bin_fix PW2 (by decide) (by decide) 0 (by decide)).2.2 hb hsum⟩

/-- Claim C10: after the clamp to `[Vmin, Vmax]` and the degenerate-bin
adjustments, every flattened scatter index `low[n,j] + n*Z` and
`up[n,j] + n*Z` of dqn.py lines 389 and 393 lies inside row `n`'s segment
`[n*Z, (n+1)*Z - 1]` of the length `N*Z` accumulator, so both `index_add_`
calls stay in bounds and no mass is written into a different batch row. -/
theorem c10_scatter_in_bounds (P : ProjIn) (hZ : 2 ≤ P.Z) (hV : P.Vmin < P.Vmax)
    (n j : ℕ) (hn : n < P.N) (_hj : j < P.Z) :
    ((n : ℤ) * P.Z ≤ flatLow P n j ∧
      flatLow P n j ≤ (n : ℤ) * P.Z + ((P.Z : ℤ) - 1))
    ∧ ((n : ℤ) * P.Z ≤ flatUp P n j ∧
      flatUp P n j ≤ (n : ℤ) * P.Z + ((P.Z : ℤ) - 1))
    ∧ (0 ≤ flatLow P n j ∧ flatUp P n j ≤ (P.N : ℤ) * P.Z - 1) := by
  obtain ⟨hl0, hul, hub⟩ := adjBounds P hZ hV n j
  have hnz : (0 : ℤ) ≤ (n : ℤ) * P.Z := by positivity
  have hc : ((n : ℤ) + 1) ≤ (P.N : ℤ) := by exact_mod_cast hn
  have hm := mul_le_mul_of_nonneg_right hc (show (0 : ℤ) ≤ (P.Z : ℤ) by positivity)
  have he : ((n : ℤ) + 1) * P.Z = (n : ℤ) * P.Z + P.Z := by ring
  rw [flatLow, flatUp]
  refine ⟨⟨by linarith, by linarith⟩, ⟨by linarith, by linarith⟩,
    ⟨by linarith, by linarith⟩⟩

theorem c10_scatter_in_bounds_witness :
    (2 ≤ PW1.Z ∧ PW1.Vmin < PW1.Vmax ∧ 0 < PW1.N ∧ 0 < PW1.Z) ∧
    ((((0 : ℕ) : ℤ) * PW1.Z ≤ flatLow PW1 0 0 ∧
      flatLow PW1 0 0 ≤ ((0 : ℕ) : ℤ) * PW1.Z + ((PW1.Z : ℤ) - 1))
    ∧ ((((0 : ℕ) : ℤ) * PW1.Z ≤ flatUp PW1 0 0 ∧
      flatUp PW1 0 0 ≤ ((0 : ℕ) : ℤ) * PW1.Z + ((PW1.Z : ℤ) - 1)))
    ∧ (0 ≤ flatLow PW1 0 0 ∧ flatUp PW1 0 0 ≤ (PW1.N : ℤ) * PW1.Z - 1)) :=
  ⟨⟨by decide, by decide, by decide, by decide⟩,
    c10_scatter_in_bounds PW1 (by decide) (by decide) 0 0 (by decide) (by decide)⟩

/-! ### Finiteness gate of the projection (dqn.py, lines 369-371)

The code clamps `Tz` first (`Tz.clamp_(min=Vmin, max=Vmax)`, line 369) and only
then tests `torch.isfinite(Tz).all()` (line 370).  Float values are modelled by
an extended type carrying the three non-finite IEEE values; torch `clamp` maps
`+inf` to the upper bound, `-inf` to the lower bound, propagates `nan`, and is
`min(max(x, lo), hi)` on finite values. -/
inductive Fl where
  | fin : ℚ → Fl
  | pinf : Fl
  | ninf : Fl
  | nan : Fl
deriving DecidableEq

/-- torch `clamp(x, min=lo, max=hi)` on the extended float model. -/
def clampFl (lo hi : ℚ) : Fl → Fl
  | .fin q => .fin (min (max q lo) hi)
  | .pinf => .fin hi
  | .ninf => .fin lo
  | .nan => .nan

/-- `torch.isfinite` on the extended float model. -/
def isfiniteFl : Fl → Bool
  | .fin _ => true
  | _ => false

/-- dqn.py lines 369-371: the projection first clamps `Tz` in place and then
raises unless every element is finite.  `true` means the gate passes (no
error is raised). -/
def tzFiniteGate (lo hi : ℚ) (tz : List Fl) : Bool :=
  (tz.map (clampFl lo hi)).all isfiniteFl

/-- Claim C3 counterexample: a `Tz` containing `+inf` (a non-finite value
appearing before projection, here with bounds `[0, 1]`) does NOT raise: the
clamp of line 369 silently turns it into `Vmax = 1` before the finiteness test
of line 370, so the gate passes.  This refutes the claim that non-finite
values in the Bellman-shifted support always raise and are never silently
clamped into `[V_min, V_max]`. -/
theorem c3_nonfinite_counterexample :
    isfiniteFl Fl.pinf = false ∧
    clampFl 0 1 Fl.pinf = Fl.fin 1 ∧
    tzFiniteGate 0 1 [Fl.pinf] = true :=
  ⟨rfl, rfl, rfl⟩

/-- Claim C3 (amended): the projection raises exactly when a non-finite value
remains after the clamp, i.e. exactly when `Tz` contains a `nan`; `+inf` and
`-inf` are silently clamped to the support bounds and pass the gate. -/
theorem c3_nonfinite_amended (lo hi : ℚ) (tz : List Fl) :
    tzFiniteGate lo hi tz = false ↔ Fl.nan ∈ tz := by
  induction tz with
  | nil => simp [tzFiniteGate]
  | cons x xs ih =>
    have hx : isfiniteFl (clampFl lo hi x) = false ↔ x = Fl.nan := by
      cases x <;> simp [clampFl, isfiniteFl]
    rw [tzFiniteGate] at ih ⊢
    simp only [List.map_cons, List.all_cons, Bool.and_eq_false_iff, ih,
      List.mem_cons]
    constructor
    · rintro (h | h)
      · exact Or.inl (hx.mp h).symm
      · exact Or.inr h
    · rintro (h | h)
      · exact Or.inl (hx.mpr h.symm)
      · exact Or.inr h

/-! ### Double-estimator target construction (dqn.py, lines 329-350)

The next-state block of `DistributionalDQNLoss.forward`, per sample of the
flattened batch.  The value network (a `DistributionalQValueActor`) writes both
its greedy `action` and its `action_value` log-softmax (shaped atoms x actions)
into the stepped tensordict; `step_mdp` drops the stored action, so the action
read at line 337 is the one written by the preceding online-parameter call.
A network call is modelled as an abstract function of the parameter snapshot
(`true` selects the online snapshot, `false` the target snapshot) that replaces
the fields it writes; `expf` abstracts `Tensor.exp`. -/
structure NextTD where
  action : List ℚ
  actionIdx : ℕ
  action_value : ℕ → ℕ → ℚ

/-- `torch.argmax` over the last axis: index of the first maximal entry. -/
def argmaxAux : List ℚ → ℕ → ℕ → ℚ → ℕ
  | [], _, bi, _ => bi
  | x :: xs, i, bi, bv => if bv < x then argmaxAux xs (i + 1) i x else argmaxAux xs (i + 1) bi bv

/-- `torch.argmax(-1)` on a vector. -/
def argmaxList : List ℚ → ℕ
  | [] => 0
  | x :: xs => argmaxAux xs 1 0 x

/-- dqn.py lines 329-350: online call (line 332), action read and selection
(lines 337-341), target call overwriting `action_value` (line 343), `exp`
(line 347), and the double-Q gather `pns[range(batch_size), :, argmax]`
(line 350), per sample.  Returns the atom-indexed `pns_a`. -/
def doubleEstimatorPnsA (categorical : Bool) (expf : ℚ → ℚ)
    (net : Bool → NextTD → NextTD) (td0 : NextTD) : ℕ → ℚ :=
  let td1 := net true td0
  let argmaxIdx := if categorical then td1.actionIdx else argmaxList td1.action
  let td2 := net false td1
  fun z => expf (td2.action_value z argmaxIdx)

/-- Claim C4: the distribution fed to the projection is the target-snapshot
output evaluated at the action selected from the online-snapshot output: for
one-hot actions the argmax of the online-written action, for categorical
actions the online-written action index.  Selection always uses the online
call, evaluation always uses the target call, in both action-space branches
(the step is never skipped). -/
theorem c4_double_estimator (categorical : Bool) (expf : ℚ → ℚ)
    (net : Bool → NextTD → NextTD) (td0 : NextTD) :
    doubleEstimatorPnsA categorical expf net td0
      = fun z => expf ((net false (net true td0)).action_value z
          (if categorical then (net true td0).actionIdx
           else argmaxList (net true td0).action)) := rfl

/-! ### Advantage estimators (advantages.py)

`TD0Estimator`, `TD1Estimator`, `TDLambdaEstimator` and `GAE` are embedded over
a tensordict model that keeps only what their `forward`/`value_estimate`
bodies touch: the batch dimension count, the `("next", "reward")` and
`("next", "done")` fields, opaque observation payloads for the current and
stepped (`step_mdp`) views, and a string-keyed store for the written outputs.
The value network is an abstract function from an optional parameter snapshot
and an observation payload to the value tensor it writes (reading it back from
the tensordict is folded into the call); the return-estimate kernels
(`td0_return_estimate`, `vec_td1_return_estimate`,
`td_lambda_return_estimate`, `vec_td_lambda_return_estimate`, from
torchrl/objectives/value/functional.py, outside src/) are abstract function
arguments, since no claim here depends on their internals.  The optional
`steps_to_next_obs` entry is modelled absent, so the `gamma ** steps` branch
is a no-op; `hold_out_net` and device moves do not affect any modelled value. -/
structure VParams where
  data : ℤ
  tracksGrad : Bool
deriving DecidableEq

/-- `params.detach()`: same weights, gradient tracking dropped. -/
def vdetach (p : VParams) : VParams := ⟨p.data, false⟩

structure TDModel where
  batch_dims : ℕ
  reward : List ℚ
  done : List Bool
  curObs : ℤ
  nextObs : ℤ
  entries : List (String × List ℚ)
deriving DecidableEq

/-- `tensordict.set(k, v)`. -/
def TDModel.set (td : TDModel) (k : String) (v : List ℚ) : TDModel :=
  { td with entries := (k, v) :: td.entries }

/-- `tensordict.get(k)` on the output store. -/
def TDModel.get (td : TDModel) (k : String) : Option (List ℚ) :=
  (td.entries.find? (fun kv => kv.fst == k)).map (fun kv => kv.snd)

inductive ErrKind where
  | shape
  | missingParams
deriving DecidableEq

abbrev NetFn := Option VParams → ℤ → List ℚ
abbrev KernelTD0 := ℚ → List ℚ → List ℚ → List Bool → List ℚ
abbrev KernelLam := ℚ → ℚ → List ℚ → List ℚ → List Bool → List ℚ

/-- Result accessor: the entry a successful `forward` wrote at `k`. -/
def getOut (e : Except ErrKind TDModel) (k : String) : Option (List ℚ) :=
  match e with
  | .ok t => t.get k
  | .error _ => none

def advantageLit : String := "advantage"
def valueTargetLit : String := "value_target"

def meanQ (l : List ℚ) : ℚ := l.sum / l.length

/-- Unbiased sample variance, the square of `Tensor.std` (default correction 1). -/
def varQ (l : List ℚ) : ℚ :=
  ((l.map (fun x => (x - meanQ l) ^ 2)).sum) / ((l.length : ℚ) - 1)

/-- `Tensor.std` with the square-root routine `sq` threaded explicitly. -/
def stdQ (sq : ℚ → ℚ) (l : List ℚ) : ℚ := sq (varQ l)

/-- advantages.py lines 332-334 (and 507-509, 691-693):
`reward = reward - reward.mean()` then
`reward = reward / reward.std().clamp_min(1e-4)` (std of the centered
rewards, which has the same variance as the original). -/
def rewardStd (sq : ℚ → ℚ) (l : List ℚ) : List ℚ :=
  let centered := l.map (fun x => x - meanQ l)
  centered.map (fun x => x / max (stdQ sq centered) (1 / 10000))

/-- advantages.py lines 923-927 (GAE): `loc = adv.mean()`,
`scale = adv.std().clamp_min(1e-4)`, `adv = (adv - loc) / scale`. -/
def gaeStd (sq : ℚ → ℚ) (l : List ℚ) : List ℚ :=
  let loc := meanQ l
  let scale := max (stdQ sq l) (1 / 10000)
  l.map (fun x => (x - loc) / scale)

def listSub (a b : List ℚ) : List ℚ := List.zipWith (fun x y => x - y) a b

def listAdd (a b : List ℚ) : List ℚ := List.zipWith (fun x y => x + y) a b

/-- advantages.py lines 319-350, `TD0Estimator.value_estimate`: optional
reward standardization written back into the caller's tensordict
(lines 332-337), `step_mdp` + bootstrap network call with `target_params`
(lines 338-344), then `td0_return_estimate` (kernel `K`).  Returns the
updated tensordict together with the value target. -/
def td0ValueEstimate (K : KernelTD0) (net : NetFn) (sq : ℚ → ℚ) (gamma : ℚ)
    (averageRewards : Bool) (targetParams : Option VParams) (td : TDModel) :
    TDModel × List ℚ :=
  let reward := if averageRewards then rewardStd sq td.reward else td.reward
  let td1 := if averageRewards then { td with reward := reward } else td
  let nextValue := net targetParams td.nextObs
  (td1, K gamma nextValue reward td.done)

/-- advantages.py lines 294-317, `TD0Estimator.forward` body after the two
guard clauses: current-step value with detached params (lines 306-310),
`target_params` defaulting to `params.detach()` (lines 312-313), the value
estimate (line 314), and the two writes at the LITERAL keys `"advantage"`
and `"value_target"` (lines 315-316) — the configured keys `_advKey`,
`_vtKey` are accepted but not consulted. -/
def td0ForwardCore (K : KernelTD0) (net : NetFn) (sq : ℚ → ℚ) (gamma : ℚ)
    (averageRewards : Bool) (_advKey _vtKey : String)
    (params targetParams : Option VParams) (td : TDModel) : TDModel :=
  let value := net (params.map vdetach) td.curObs
  let targetEff := if params.isSome && targetParams.isNone
    then params.map vdetach else targetParams
  let r := td0ValueEstimate K net sq gamma averageRewards targetEff td
  (r.fst.set advantageLit (listSub r.snd value)).set valueTargetLit r.snd

/-- advantages.py lines 295-317, `TD0Estimator.forward`: raises on a
zero-dimensional batch (lines 295-299), raises when a stateless network gets
no params (lines 302-305), else runs the body. -/
def td0Forward (K : KernelTD0) (net : NetFn) (sq : ℚ → ℚ) (gamma : ℚ)
    (averageRewards stateless : Bool) (advKey vtKey : String)
    (params targetParams : Option VParams) (td : TDModel) :
    Except ErrKind TDModel :=
  if td.batch_dims < 1 then .error .shape
  else if stateless && params.isNone then .error .missingParams
  else .ok (td0ForwardCore K net sq gamma averageRewards advKey vtKey
    params targetParams td)

/-- advantages.py lines 494-525, `TD1Estimator.value_estimate` (kernel `K`
stands for `vec_td1_return_estimate`); same structure as TD0. -/
def td1ValueEstimate (K : KernelTD0) (net : NetFn) (sq : ℚ → ℚ) (gamma : ℚ)
    (averageRewards : Bool) (targetParams : Option VParams) (td : TDModel) :
    TDModel × List ℚ :=
  let reward := if averageRewards then rewardStd sq td.reward else td.reward
  let td1 := if averageRewards then { td with reward := reward } else td
  let nextValue := net targetParams td.nextObs
  (td1, K gamma nextValue reward td.done)

/-- advantages.py lines 469-492, `TD1Estimator.forward` body: current-step
value with detached params (line 481), `target_params` defaulting to
`params.detach()` (lines 487-488), writes at the LITERAL keys
`"advantage"`/`"value_target"` (lines 490-491). -/
def td1ForwardCore (K : KernelTD0) (net : NetFn) (sq : ℚ → ℚ) (gamma : ℚ)
    (averageRewards : Bool) (_advKey _vtKey : String)
    (params targetParams : Option VParams) (td : TDModel) : TDModel :=
  let value := net (params.map vdetach) td.curObs
  let targetEff := if params.isSome && targetParams.isNone
    then params.map vdetach else targetParams
  let r := td1ValueEstimate K net sq gamma averageRewards targetEff td
  (r.fst.set advantageLit (listSub r.snd value)).set valueTargetLit r.snd

/-- advantages.py lines 469-492, `TD1Estimator.forward` with its guard
clauses. -/
def td1Forward (K : KernelTD0) (net : NetFn) (sq : ℚ → ℚ) (gamma : ℚ)
    (averageRewards stateless : Bool) (advKey vtKey : String)
    (params targetParams : Option VParams) (td : TDModel) :
    Except ErrKind TDModel :=
  if td.batch_dims < 1 then .error .shape
  else if stateless && params.isNone then .error .missingParams
  else .ok (td1ForwardCore K net sq gamma averageRewards advKey vtKey
    params targetParams td)

/-- advantages.py lines 677-715, `TDLambdaEstimator.value_estimate`:
`Kvec`/`Kseq` stand for `vec_td_lambda_return_estimate` and
`td_lambda_return_estimate`, selected by the `vectorized` flag
(lines 707-714). -/
def tdLambdaValueEstimate (Kvec Kseq : KernelLam) (vectorized : Bool)
    (net : NetFn) (sq : ℚ → ℚ) (gamma lmbda : ℚ) (averageRewards : Bool)
    (targetParams : Option VParams) (td : TDModel) : TDModel × List ℚ :=
  let reward := if averageRewards then rewardStd sq td.reward else td.reward
  let td1 := if averageRewards then { td with reward := reward } else td
  let nextValue := net targetParams td.nextObs
  let vt := if vectorized then Kvec gamma lmbda nextValue reward td.done
    else Kseq gamma lmbda nextValue reward td.done
  (td1, vt)

/-- advantages.py lines 652-675, `TDLambdaEstimator.forward` body:
current-step value with the UNdetached params (line 664), `target_params`
defaulting to `params.detach()` (lines 669-670), writes at the CONFIGURED
keys `self.advantage_key` / `self.value_target_key` (lines 673-674). -/
def tdLambdaForwardCore (Kvec Kseq : KernelLam) (vectorized : Bool)
    (net : NetFn) (sq : ℚ → ℚ) (gamma lmbda : ℚ) (averageRewards : Bool)
    (advKey vtKey : String) (params targetParams : Option VParams)
    (td : TDModel) : TDModel :=
  let value := net params td.curObs
  let targetEff := if params.isSome && targetParams.isNone
    then params.map vdetach else targetParams
  let r := tdLambdaValueEstimate Kvec Kseq vectorized net sq gamma lmbda
    averageRewards targetEff td
  (r.fst.set advKey (listSub r.snd value)).set vtKey r.snd

/-- advantages.py lines 653-675, `TDLambdaEstimator.forward` with its guard
clauses. -/
def tdLambdaForward (Kvec Kseq : KernelLam) (vectorized : Bool) (net : NetFn)
    (sq : ℚ → ℚ) (gamma lmbda : ℚ) (averageRewards stateless : Bool)
    (advKey vtKey : String) (params targetParams : Option VParams)
    (td : TDModel) : Except ErrKind TDModel :=
  if td.batch_dims < 1 then .error .shape
  else if stateless && params.isNone then .error .missingParams
  else .ok (tdLambdaForwardCore Kvec Kseq vectorized net sq gamma lmbda
    averageRewards advKey vtKey params targetParams td)

/-- Modelled from the spec: the GAE recursion of
`generalized_advantage_estimate` / `vec_generalized_advantage_estimate`
(torchrl/objectives/value/functional.py, which is not under src/).  Spec
section 4.2: `delta[t] = reward[t] + gamma*(1-done[t])*Vnext[t] - V[t]`,
`A[t] = delta[t] + gamma*lmbda*(1-done[t])*A[t+1]` backward with `A[T] = 0`;
the sequential and vectorized implementations agree, so one kernel models
both branches of advantages.py lines 902-921. -/
def gaeAdvSpec (gamma lmbda : ℚ) :
    List ℚ → List ℚ → List ℚ → List Bool → List ℚ
  | v :: vs, nv :: nvs, r :: rs, d :: ds =>
    let rest := gaeAdvSpec gamma lmbda vs nvs rs ds
    let nd : ℚ := if d then 0 else 1
    (r + gamma * nd * nv - v + gamma * lmbda * nd * rest.headD 0) :: rest
  | _, _, _, _ => []

/-- advantages.py lines 890-894: the params used for the bootstrap call —
`target_params` when given, else `params.detach()` when params were passed. -/
def gaeTargetEff (params targetParams : Option VParams) : Option VParams :=
  if targetParams.isSome then targetParams else params.map vdetach

/-- advantages.py lines 866-930, `GAE.forward` body: current-step value with
the UNdetached params (lines 878-887), bootstrap value with `gaeTargetEff`
(lines 889-900), the GAE kernel returning `(adv, value_target)` with
`value_target = adv + value` (spec section 4.2, lines 902-921), the optional
standardization applied to `adv` ONLY and AFTER `value_target` is fixed
(lines 923-927), then writes at the configured keys (lines 929-930). -/
def gaeForwardCore (sq : ℚ → ℚ) (net : NetFn) (gamma lmbda : ℚ)
    (averageGae _vectorized : Bool) (advKey vtKey : String)
    (params targetParams : Option VParams) (td : TDModel) : TDModel :=
  let value := net params td.curObs
  let nextValue := net (gaeTargetEff params targetParams) td.nextObs
  let advRaw := gaeAdvSpec gamma lmbda value nextValue td.reward td.done
  let vt := listAdd advRaw value
  let adv := if averageGae then gaeStd sq advRaw else advRaw
  (td.set advKey adv).set vtKey vt

/-- advantages.py lines 799-932, `GAE.forward` with its guard clauses
(lines 861-865, 874-877). -/
def gaeForward (sq : ℚ → ℚ) (net : NetFn) (gamma lmbda : ℚ)
    (averageGae vectorized stateless : Bool) (advKey vtKey : String)
    (params targetParams : Option VParams) (td : TDModel) :
    Except ErrKind TDModel :=
  if td.batch_dims < 1 then .error .shape
  else if stateless && params.isNone then .error .missingParams
  else .ok (gaeForwardCore sq net gamma lmbda averageGae vectorized advKey
    vtKey params targetParams td)

lemma get_set_same (td : TDModel) (k : String) (v : List ℚ) :
    (td.set k v).get k = some v := by
  show (List.find? (fun kv => kv.fst == k) ((k, v) :: td.entries)).map
      (fun kv => kv.snd) = some v
  simp [List.find?]

lemma get_set_other (td : TDModel) (k k2 : String) (v : List ℚ) (h : k2 ≠ k) :
    (td.set k v).get k2 = td.get k2 := by
  have hb : (k == k2) = false := beq_eq_false_iff_ne.mpr (Ne.symm h)
  show (List.find? (fun kv => kv.fst == k2) ((k, v) :: td.entries)).map
      (fun kv => kv.snd) = td.get k2
  simp only [List.find?, Prod.fst, hb]
  rfl

lemma get_set_set_first (td : TDModel) (k1 k2 : String) (v1 v2 : List ℚ)
    (h : k1 ≠ k2) : ((td.set k1 v1).set k2 v2).get k1 = some v1 := by
  rw [get_set_other _ k2 k1 v2 h, get_set_same]

lemma get_set_set_second (td : TDModel) (k1 k2 : String) (v1 v2 : List ℚ) :
    ((td.set k1 v1).set k2 v2).get k2 = some v2 :=
  get_set_same _ _ _

lemma listSub_listAdd (a v : List ℚ) (h : a.length ≤ v.length) :
    listSub (listAdd a v) v = a := by
  induction a generalizing v with
  | nil => simp [listSub, listAdd]
  | cons x xs ih =>
    cases v with
    | nil => simp at h
    | cons y ys =>
      have hlen : xs.length ≤ ys.length := by simpa using h
      show (x + y - y) :: listSub (listAdd xs ys) ys = x :: xs
      rw [ih ys hlen, add_sub_cancel_right]

/-- Claim C5: every estimator `forward` — `TD0Estimator` (lines 295-299),
`TD1Estimator` (lines 469-473), `TDLambdaEstimator` (lines 653-657) and
`GAE` (lines 861-865) — raises when the input batch has no batch/time
dimension at all (`tensordict.batch_dims < 1`), before any value
computation: the result is independent of the value network and kernels. -/
theorem c5_zero_batch_dims_raise (K0 K1 : KernelTD0) (Kvec Kseq : KernelLam)
    (net : NetFn) (sq : ℚ → ℚ) (gamma lmbda : ℚ)
    (avgR avgG vect stateless : Bool) (advKey vtKey : String)
    (params targetParams : Option VParams) (td : TDModel)
    (h : td.batch_dims = 0) :
    td0Forward K0 net sq gamma avgR stateless advKey vtKey params
        targetParams td = .error .shape
    ∧ td1Forward K1 net sq gamma avgR stateless advKey vtKey params
        targetParams td = .error .shape
    ∧ tdLambdaForward Kvec Kseq vect net sq gamma lmbda avgR stateless advKey
        vtKey params targetParams td = .error .shape
    ∧ gaeForward sq net gamma lmbda avgG vect stateless advKey vtKey params
        targetParams td = .error .shape := by
  refine ⟨?_, ?_, ?_, ?_⟩ <;>
    simp [td0Forward, td1Forward, tdLambdaForward, gaeForward, h]

def netW : NetFn := fun _ _ => [0]

def sqW : ℚ → ℚ := fun x => x

def K0W : KernelTD0 := fun _ _ r _ => r

def KLW : KernelLam := fun _ _ _ r _ => r

def tdW0 : TDModel :=
  { batch_dims := 0, reward := [1], done := [false], curObs := 0,
    nextObs := 1, entries := [] }

theorem c5_zero_batch_dims_raise_witness :
    tdW0.batch_dims = 0 ∧
    (td0Forward K0W netW sqW 1 false false advantageLit valueTargetLit none
        none tdW0 = .error .shape
    ∧ td1Forward K0W netW sqW 1 false false advantageLit valueTargetLit none
        none tdW0 = .error .shape
    ∧ tdLambdaForward KLW KLW true netW sqW 1 1 false false advantageLit
        valueTargetLit none none tdW0 = .error .shape
    ∧ gaeForward sqW netW 1 1 false true false advantageLit valueTargetLit
        none none tdW0 = .error .shape) :=
  ⟨rfl, c5_zero_batch_dims_raise K0W K0W KLW KLW netW sqW 1 1 false false
    true false advantageLit valueTargetLit none none tdW0 rfl⟩

/-- Claim C6: in every estimator `forward` with `params` provided and
`target_params` omitted, the bootstrap/next-step prediction uses
`params.detach()` — a copy with the same weights and gradient tracking off —
so running with the omitted argument is identical to explicitly passing the
detached copy (`TD0Estimator` lines 312-313, `TD1Estimator` lines 487-488,
`TDLambdaEstimator` lines 669-670, `GAE` lines 890-894). -/
theorem c6_default_target_is_detached (K0 K1 : KernelTD0)
    (Kvec Kseq : KernelLam) (net : NetFn) (sq : ℚ → ℚ) (gamma lmbda : ℚ)
    (avgR avgG vect stateless : Bool) (advKey vtKey : String) (p : VParams)
    (td : TDModel) :
    ((vdetach p).data = p.data ∧ (vdetach p).tracksGrad = false)
    ∧ td0Forward K0 net sq gamma avgR stateless advKey vtKey (some p) none td
      = td0Forward K0 net sq gamma avgR stateless advKey vtKey (some p)
          (some (vdetach p)) td
    ∧ td1Forward K1 net sq gamma avgR stateless advKey vtKey (some p) none td
      = td1Forward K1 net sq gamma avgR stateless advKey vtKey (some p)
          (some (vdetach p)) td
    ∧ tdLambdaForward Kvec Kseq vect net sq gamma lmbda avgR stateless advKey
        vtKey (some p) none td
      = tdLambdaForward Kvec Kseq vect net sq gamma lmbda avgR stateless
          advKey vtKey (some p) (some (vdetach p)) td
    ∧ gaeForward sq net gamma lmbda avgG vect stateless advKey vtKey (some p)
        none td
      = gaeForward sq net gamma lmbda avgG vect stateless advKey vtKey
          (some p) (some (vdetach p)) td := by
  refine ⟨⟨rfl, rfl⟩, ?_, ?_, ?_, ?_⟩ <;>
    simp [td0Forward, td0ForwardCore, td1Forward, td1ForwardCore,
      tdLambdaForward, tdLambdaForwardCore, gaeForward, gaeForwardCore,
      gaeTargetEff]

/-- Claim C7: with `average_rewards` on, `value_estimate` of
`TD0Estimator` (lines 332-337), `TD1Estimator` (lines 507-512) and
`TDLambdaEstimator` (lines 691-696) replaces the caller's
`("next", "reward")` entry with `(reward - mean) / max(std, 1e-4)` and the
return-estimate kernel consumes exactly that standardized reward; with the
flag off, the tensordict is returned untouched and the kernel consumes the
original reward. -/
theorem c7_reward_standardization (K0 K1 : KernelTD0) (Kvec Kseq : KernelLam)
    (net : NetFn) (sq : ℚ → ℚ) (gamma lmbda : ℚ) (vect : Bool)
    (targetParams : Option VParams) (td : TDModel) :
    ((td0ValueEstimate K0 net sq gamma true targetParams td).fst.reward
        = rewardStd sq td.reward
      ∧ (td0ValueEstimate K0 net sq gamma true targetParams td).snd
        = K0 gamma (net targetParams td.nextObs) (rewardStd sq td.reward)
            td.done)
    ∧ ((td0ValueEstimate K0 net sq gamma false targetParams td).fst = td
      ∧ (td0ValueEstimate K0 net sq gamma false targetParams td).snd
        = K0 gamma (net targetParams td.nextObs) td.reward td.done)
    ∧ ((td1ValueEstimate K1 net sq gamma true targetParams td).fst.reward
        = rewardStd sq td.reward
      ∧ (td1ValueEstimate K1 net sq gamma true targetParams td).snd
        = K1 gamma (net targetParams td.nextObs) (rewardStd sq td.reward)
            td.done)
    ∧ ((td1ValueEstimate K1 net sq gamma false targetParams td).fst = td
      ∧ (td1ValueEstimate K1 net sq gamma false targetParams td).snd
        = K1 gamma (net targetParams td.nextObs) td.reward td.done)
    ∧ ((tdLambdaValueEstimate Kvec Kseq vect net sq gamma lmbda true
          targetParams td).fst.reward = rewardStd sq td.reward
      ∧ (tdLambdaValueEstimate Kvec Kseq vect net sq gamma lmbda true
          targetParams td).snd
        = (if vect then
            Kvec gamma lmbda (net targetParams td.nextObs)
              (rewardStd sq td.reward) td.done
          else
            Kseq gamma lmbda (net targetParams td.nextObs)
              (rewardStd sq td.reward) td.done))
    ∧ ((tdLambdaValueEstimate Kvec Kseq vect net sq gamma lmbda false
          targetParams td).fst = td
      ∧ (tdLambdaValueEstimate Kvec Kseq vect net sq gamma lmbda false
          targetParams td).snd
        = (if vect then
            Kvec gamma lmbda (net targetParams td.nextObs) td.reward td.done
          else
            Kseq gamma lmbda (net targetParams td.nextObs) td.reward
              td.done)) :=
  ⟨⟨rfl, rfl⟩, ⟨rfl, rfl⟩, ⟨rfl, rfl⟩, ⟨rfl, rfl⟩, ⟨rfl, rfl⟩, ⟨rfl, rfl⟩⟩

/-- Claim C8: `TD0Estimator.forward` and `TD1Estimator.forward` write their
outputs at the LITERAL keys `"advantage"` and `"value_target"`
(lines 315-316 and 490-491): their result does not depend on the configured
keys at all, and both literal entries are present on success; whereas
`TDLambdaEstimator.forward` writes at the CONFIGURED keys (lines 673-674),
producing at `advKey`/`vtKey` exactly what the default-key configuration
produces at the literal keys. -/
theorem c8_output_keys (K0 K1 : KernelTD0) (Kvec Kseq : KernelLam)
    (net : NetFn) (sq : ℚ → ℚ) (gamma lmbda : ℚ) (avgR vect : Bool)
    (advKey vtKey : String) (p : VParams) (targetParams : Option VParams)
    (td : TDModel) (h : 1 ≤ td.batch_dims) (hk : advKey ≠ vtKey) :
    (td0Forward K0 net sq gamma avgR false advKey vtKey (some p) targetParams
        td
      = td0Forward K0 net sq gamma avgR false advantageLit valueTargetLit
          (some p) targetParams td)
    ∧ (getOut (td0Forward K0 net sq gamma avgR false advKey vtKey (some p)
        targetParams td) advantageLit).isSome = true
    ∧ (getOut (td0Forward K0 net sq gamma avgR false advKey vtKey (some p)
        targetParams td) valueTargetLit).isSome = true
    ∧ (td1Forward K1 net sq gamma avgR false advKey vtKey (some p)
        targetParams td
      = td1Forward K1 net sq gamma avgR false advantageLit valueTargetLit
          (some p) targetParams td)
    ∧ (getOut (td1Forward K1 net sq gamma avgR false advKey vtKey (some p)
        targetParams td) advantageLit).isSome = true
    ∧ (getOut (td1Forward K1 net sq gamma avgR false advKey vtKey (some p)
        targetParams td) valueTargetLit).isSome = true
    ∧ (getOut (tdLambdaForward Kvec Kseq vect net sq gamma lmbda avgR false
        advKey vtKey (some p) targetParams td) advKey
      = getOut (tdLambdaForward Kvec Kseq vect net sq gamma lmbda avgR false
          advantageLit valueTargetLit (some p) targetParams td) advantageLit)
    ∧ (getOut (tdLambdaForward Kvec Kseq vect net sq gamma lmbda avgR false
        advKey vtKey (some p) targetParams td) vtKey
      = getOut (tdLambdaForward Kvec Kseq vect net sq gamma lmbda avgR false
          advantageLit valueTargetLit (some p) targetParams td)
          valueTargetLit) := by
  have hlt : ¬(td.batch_dims < 1) := by omega
  have hd : advantageLit ≠ valueTargetLit := by decide
  refine ⟨rfl, ?_, ?_, rfl, ?_, ?_, ?_, ?_⟩
  · rw [td0Forward, if_neg hlt]
    simp only [Bool.false_and, Bool.false_eq_true, if_false, getOut,
      td0ForwardCore]
    rw [get_set_set_first _ _ _ _ _ hd]
    rfl
  · rw [td0Forward, if_neg hlt]
    simp only [Bool.false_and, Bool.false_eq_true, if_false, getOut,
      td0ForwardCore]
    rw [get_set_set_second]
    rfl
  · rw [td1Forward, if_neg hlt]
    simp only [Bool.false_and, Bool.false_eq_true, if_false, getOut,
      td1ForwardCore]
    rw [get_set_set_first _ _ _ _ _ hd]
    rfl
  · rw [td1Forward, if_neg hlt]
    simp only [Bool.false_and, Bool.false_eq_true, if_false, getOut,
      td1ForwardCore]
    rw [get_set_set_second]
    rfl
  · rw [tdLambdaForward, if_neg hlt, tdLambdaForward, if_neg hlt]
    simp only [Bool.false_and, Bool.false_eq_true, if_false, getOut,
      tdLambdaForwardCore]
    rw [get_set_set_first _ _ _ _ _ hk, get_set_set_first _ _ _ _ _ hd]
  · rw [tdLambdaForward, if_neg hlt, tdLambdaForward, if_neg hlt]
    simp only [Bool.false_and, Bool.false_eq_true, if_false, getOut,
      tdLambdaForwardCore]
    rw [get_set_set_second, get_set_set_second]

def advKeyW : String := "adv2"

def vtKeyW : String := "vt2"

def pW : VParams := ⟨0, true⟩

def tdW1 : TDModel :=
  { batch_dims := 1, reward := [1], done := [false], curObs := 0,
    nextObs := 1, entries := [] }

theorem c8_output_keys_witness :
    (1 ≤ tdW1.batch_dims ∧ advKeyW ≠ vtKeyW) ∧
    ((td0Forward K0W netW sqW 1 false false advKeyW vtKeyW (some pW) none
        tdW1
      = td0Forward K0W netW sqW 1 false false advantageLit valueTargetLit
          (some pW) none tdW1)
    ∧ (getOut (td0Forward K0W netW sqW 1 false false advKeyW vtKeyW
        (some pW) none tdW1) advantageLit).isSome = true
    ∧ (getOut (td0Forward K0W netW sqW 1 false false advKeyW vtKeyW
        (some pW) none tdW1) valueTargetLit).isSome = true
    ∧ (td1Forward K0W netW sqW 1 false false advKeyW vtKeyW (some pW) none
        tdW1
      = td1Forward K0W netW sqW 1 false false advantageLit valueTargetLit
          (some pW) none tdW1)
    ∧ (getOut (td1Forward K0W netW sqW 1 false false advKeyW vtKeyW
        (some pW) none tdW1) advantageLit).isSome = true
    ∧ (getOut (td1Forward K0W netW sqW 1 false false advKeyW vtKeyW
        (some pW) none tdW1) valueTargetLit).isSome = true
    ∧ (getOut (tdLambdaForward KLW KLW true netW sqW 1 1 false false advKeyW
        vtKeyW (some pW) none tdW1) advKeyW
      = getOut (tdLambdaForward KLW KLW true netW sqW 1 1 false false
          advantageLit valueTargetLit (some pW) none tdW1) advantageLit)
    ∧ (getOut (tdLambdaForward KLW KLW true netW sqW 1 1 false false advKeyW
        vtKeyW (some pW) none tdW1) vtKeyW
      = getOut (tdLambdaForward KLW KLW true netW sqW 1 1 false false
          advantageLit valueTargetLit (some pW) none tdW1)
          valueTargetLit)) :=
  ⟨⟨by decide, by decide⟩,
    c8_output_keys K0W K0W KLW KLW netW sqW 1 1 false true advKeyW vtKeyW pW
      none tdW1 (by decide) (by decide)⟩

/-- Claim C9: in `GAE.forward` the written `value_target` is always the
UN-standardized advantage plus the current value prediction — it is fixed
before the `average_gae` standardization of lines 923-927 and not recomputed —
so with `average_gae` on, the written advantage is the standardized one and
the identity `advantage = value_target - value` fails whenever
standardization changes the advantage; with `average_gae` off, the written
advantage equals `value_target - value`. -/
theorem c9_gae_value_target_unstandardized (sq : ℚ → ℚ) (net : NetFn)
    (gamma lmbda : ℚ) (vect : Bool) (advKey vtKey : String) (p : VParams)
    (targetParams : Option VParams) (td : TDModel)
    (h : 1 ≤ td.batch_dims) (hk : advKey ≠ vtKey)
    (hlen : (gaeAdvSpec gamma lmbda (net (some p) td.curObs)
        (net (gaeTargetEff (some p) targetParams) td.nextObs) td.reward
        td.done).length = (net (some p) td.curObs).length) :
    (getOut (gaeForward sq net gamma lmbda true vect false advKey vtKey
        (some p) targetParams td) vtKey
      = some (listAdd (gaeAdvSpec gamma lmbda (net (some p) td.curObs)
          (net (gaeTargetEff (some p) targetParams) td.nextObs) td.reward
          td.done) (net (some p) td.curObs)))
    ∧ (getOut (gaeForward sq net gamma lmbda true vect false advKey vtKey
        (some p) targetParams td) advKey
      = some (gaeStd sq (gaeAdvSpec gamma lmbda (net (some p) td.curObs)
          (net (gaeTargetEff (some p) targetParams) td.nextObs) td.reward
          td.done)))
    ∧ (gaeStd sq (gaeAdvSpec gamma lmbda (net (some p) td.curObs)
          (net (gaeTargetEff (some p) targetParams) td.nextObs) td.reward
          td.done)
        ≠ gaeAdvSpec gamma lmbda (net (some p) td.curObs)
          (net (gaeTargetEff (some p) targetParams) td.nextObs) td.reward
          td.done →
      getOut (gaeForward sq net gamma lmbda true vect false advKey vtKey
          (some p) targetParams td) advKey
        ≠ some (listSub (listAdd (gaeAdvSpec gamma lmbda
            (net (some p) td.curObs)
            (net (gaeTargetEff (some p) targetParams) td.nextObs) td.reward
            td.done) (net (some p) td.curObs)) (net (some p) td.curObs)))
    ∧ (getOut (gaeForward sq net gamma lmbda false vect false advKey vtKey
        (some p) targetParams td) advKey
      = some (listSub (listAdd (gaeAdvSpec gamma lmbda
          (net (some p) td.curObs)
          (net (gaeTargetEff (some p) targetParams) td.nextObs) td.reward
          td.done) (net (some p) td.curObs)) (net (some p) td.curObs)))
    ∧ (getOut (gaeForward sq net gamma lmbda false vect false advKey vtKey
        (some p) targetParams td) vtKey
      = some (listAdd (gaeAdvSpec gamma lmbda (net (some p) td.curObs)
          (net (gaeTargetEff (some p) targetParams) td.nextObs) td.reward
          td.done) (net (some p) td.curObs))) := by
  have hlt : ¬(td.batch_dims < 1) := by omega
  have hsub : listSub (listAdd (gaeAdvSpec gamma lmbda
      (net (some p) td.curObs)
      (net (gaeTargetEff (some p) targetParams) td.nextObs) td.reward
      td.done) (net (some p) td.curObs)) (net (some p) td.curObs)
      = gaeAdvSpec gamma lmbda (net (some p) td.curObs)
        (net (gaeTargetEff (some p) targetParams) td.nextObs) td.reward
        td.done :=
    listSub_listAdd _ _ (le_of_eq hlen)
  refine ⟨?_, ?_, ?_, ?_, ?_⟩
  · rw [gaeForward, if_neg hlt]
    simp only [Bool.false_and, Bool.false_eq_true, if_false, getOut,
      gaeForwardCore, if_true]
    rw [get_set_set_second]
  · rw [gaeForward, if_neg hlt]
    simp only [Bool.false_and, Bool.false_eq_true, if_false, getOut,
      gaeForwardCore, if_true]
    rw [get_set_set_first _ _ _ _ _ hk]
  · intro hne hEq
    rw [gaeForward, if_neg hlt] at hEq
    simp only [Bool.false_and, Bool.false_eq_true, if_false, getOut,
      gaeForwardCore, if_true] at hEq
    rw [get_set_set_first _ _ _ _ _ hk, hsub] at hEq
    exact hne (Option.some.inj hEq)
  · rw [gaeForward, if_neg hlt]
    simp only [Bool.false_and, Bool.false_eq_true, if_false, getOut,
      gaeForwardCore, Bool.false_eq_true, if_false]
    rw [get_set_set_first _ _ _ _ _ hk, hsub]
  · rw [gaeForward, if_neg hlt]
    simp only [Bool.false_and, Bool.false_eq_true, if_false, getOut,
      gaeForwardCore]
    rw [get_set_set_second]

def netW3 : NetFn := fun _ _ => [0, 0, 0]

def tdW3 : TDModel :=
  { batch_dims := 1, reward := [0, 1, 2], done := [false, false, false],
    curObs := 0, nextObs := 1, entries := [] }

theorem c9_gae_value_target_unstandardized_witness :
    (1 ≤ tdW3.batch_dims ∧ advKeyW ≠ vtKeyW ∧
      (gaeAdvSpec 0 0 (netW3 (some pW) tdW3.curObs)
        (netW3 (gaeTargetEff (some pW) none) tdW3.nextObs) tdW3.reward
        tdW3.done).length = (netW3 (some pW) tdW3.curObs).length) ∧
    ((getOut (gaeForward sqW netW3 0 0 true true false advKeyW vtKeyW
        (some pW) none tdW3) vtKeyW
      = some (listAdd (gaeAdvSpec 0 0 (netW3 (some pW) tdW3.curObs)
          (netW3 (gaeTargetEff (some pW) none) tdW3.nextObs) tdW3.reward
          tdW3.done) (netW3 (some pW) tdW3.curObs)))
    ∧ (getOut (gaeForward sqW netW3 0 0 true true false advKeyW vtKeyW
        (some pW) none tdW3) advKeyW
      = some (gaeStd sqW (gaeAdvSpec 0 0 (netW3 (some pW) tdW3.curObs)
          (netW3 (gaeTargetEff (some pW) none) tdW3.nextObs) tdW3.reward
          tdW3.done)))
    ∧ (gaeStd sqW (gaeAdvSpec 0 0 (netW3 (some pW) tdW3.curObs)
          (netW3 (gaeTargetEff (some pW) none) tdW3.nextObs) tdW3.reward
          tdW3.done)
        ≠ gaeAdvSpec 0 0 (netW3 (some pW) tdW3.curObs)
          (netW3 (gaeTargetEff (some pW) none) tdW3.nextObs) tdW3.reward
          tdW3.done →
      getOut (gaeForward sqW netW3 0 0 true true false advKeyW vtKeyW
          (some pW) none tdW3) advKeyW
        ≠ some (listSub (listAdd (gaeAdvSpec 0 0
            (netW3 (some pW) tdW3.curObs)
            (netW3 (gaeTargetEff (some pW) none) tdW3.nextObs) tdW3.reward
            tdW3.done) (netW3 (some pW) tdW3.curObs))
            (netW3 (some pW) tdW3.curObs)))
    ∧ (getOut (gaeForward sqW netW3 0 0 false true false advKeyW vtKeyW
        (some pW) none tdW3) advKeyW
      = some (listSub (listAdd (gaeAdvSpec 0 0 (netW3 (some pW) tdW3.curObs)
          (netW3 (gaeTargetEff (some pW) none) tdW3.nextObs) tdW3.reward
          tdW3.done) (netW3 (some pW) tdW3.curObs))
          (netW3 (some pW) tdW3.curObs)))
    ∧ (getOut (gaeForward sqW netW3 0 0 false true false advKeyW vtKeyW
        (some pW) none tdW3) vtKeyW
      = some (listAdd (gaeAdvSpec 0 0 (netW3 (some pW) tdW3.curObs)
          (netW3 (gaeTargetEff (some pW) none) tdW3.nextObs) tdW3.reward
          tdW3.done) (netW3 (some pW) tdW3.curObs)))) :=
  ⟨⟨by decide, by decide, by simp [gaeAdvSpec, netW3, tdW3]⟩,
    c9_gae_value_target_unstandardized sqW netW3 0 0 true advKeyW vtKeyW pW
      none tdW3 (by decide) (by decide)
      (by simp [gaeAdvSpec, netW3, tdW3])⟩

end RLSpec
